import Mathlib

/-!
Verification of http-curl: option sanitizer, bounded executor and the `/curl` handler.

A shallow embedding of `lib/curl.go` (package `httpcurl`) and of `handleCurl`
in `main.go`, followed by theorems about them.

Conventions of the embedding:

* A Go `map[string]CurlValue` is given by its entries in the order in which the
  `range` loop visits them, so a statement about every entry list is a statement
  about every map and every iteration order of it.
* A Go `[]byte` is a list of bytes; a `nil` slice and an empty slice are both `[]`.
* A Go `error` is `Option Error`; `none` is the `nil` error.
* What the operating system, the Go standard library and the echo framework do
  is taken from an explicit environment value, so every function is pure.
-/

set_option autoImplicit false

namespace httpcurl

/-! ## Data model -/

/-- A Go `[]byte`. -/
abbrev Bytes := List (Fin 256)

/-- A Go `time.Duration`, in nanoseconds. -/
abbrev Duration := Int

/-- Go type `CurlValue []string`. -/
abbrev CurlValue := List String

/-- Go type `CurlOption map[string]CurlValue`, as the entries in `range` order. -/
abbrev CurlOption := List (String × CurlValue)

/-- Entries of the Go map literal `AllowedCurlOptions`. -/
def AllowedCurlOptionsEntries : List (String × Bool) :=
  [ ("-k", true),
    ("-x", true),
    ("-X", true),
    ("-d", true),
    ("--data", true),
    ("--location", true),
    ("-H", true),
    ("--tls-max", true) ]

/-- Go index expression `AllowedCurlOptions[key]`: the stored value, or the zero
value `false` when the key is absent. -/
def AllowedCurlOptions (key : String) : Bool :=
  match AllowedCurlOptionsEntries.lookup key with
  | some b => b
  | none => false

/-- Errors returned by what the Go function `CombinedOutput` of `os/exec` does. -/
inductive ExecError where
  /-- The process could not be started (for instance the binary was not found). -/
  | start (msg : String)
  /-- The process ran and exited with a non-zero status (`*exec.ExitError`). -/
  | exit (status : Nat)
  /-- The process was terminated by a signal (`*exec.ExitError`). -/
  | signal (name : String)
  /-- Any other error of waiting for the process or of copying its output. -/
  | wait (msg : String)
  deriving DecidableEq, Repr

/-- The error values that `HttpCurl` can return. -/
inductive Error where
  /-- The value of `fmt.Errorf("unauthorized curl option: %s", key)`. -/
  | unauthorized (key : String)
  /-- The value of `fmt.Errorf("request timed out")`. -/
  | timedOut
  /-- An error handed back by `cmd.CombinedOutput()`. -/
  | exec (e : ExecError)
  deriving DecidableEq, Repr

/-- Text of an `ExecError`, as `Error()` gives it. -/
def ExecError.message : ExecError → String
  | .start msg => msg
  | .exit status => "exit status " ++ toString status
  | .signal name => "signal: " ++ name
  | .wait msg => msg

/-- Text of an `Error`, as `Error()` gives it. -/
def Error.message : Error → String
  | .unauthorized key => "unauthorized curl option: " ++ key
  | .timedOut => "request timed out"
  | .exec e => e.message

/-! ## `sanitizeInput` -/

/-- The inner loop `for _, value := range values` of `sanitizeInput`, appending to
`args`. -/
def appendValues (key : String) : List String → List String → List String
  | args, [] => args
  | args, value :: rest =>
    if value = "" ∨ value = "true" then
      appendValues key (args ++ [key]) rest
    else
      appendValues key (args ++ [key, value]) rest

/-- The outer loop `for key, values := range input` of `sanitizeInput`, started
with the accumulated `args`. -/
def sanitizeLoop : List String → CurlOption → List String × Option Error
  | args, [] => (args, none)
  | args, (key, values) :: rest =>
    if !AllowedCurlOptions key then
      ([], some (Error.unauthorized key))
    else
      sanitizeLoop (appendValues key args values) rest

/-- Go function `sanitizeInput`: the pair `(args, err)` it returns. -/
def sanitizeInput (input : CurlOption) : List String × Option Error :=
  sanitizeLoop [] input

/-! ## Specification-side description of the sanitizer's output -/

/-- What one value of a key contributes, in the words of the specification: the
bare flag for `""` and `"true"`, the flag followed by the value otherwise. -/
def emitValue (key value : String) : List String :=
  if value = "" ∨ value = "true" then [key] else [key, value]

/-- What one key contributes: its values' contributions, in the values' order. -/
def emitKey (e : String × CurlValue) : List String :=
  (e.2.map (emitValue e.1)).flatten

/-- The eight permitted flag names of the specification's allow-list. -/
def allowList : List String :=
  ["-k", "-x", "-X", "-d", "--data", "--location", "-H", "--tls-max"]

/-! ## `HttpCurl` -/

/-- How the one child process of a call ended, as the operating system reports it. -/
inductive ProcOutcome where
  /-- The program could not be started; nothing was read from it. -/
  | startFailed (msg : String)
  /-- The program ran and exited with `status`; `out` is its combined output. -/
  | exited (status : Nat) (out : Bytes)
  /-- The program was terminated by signal `name` (as on a kill at the deadline). -/
  | signaled (name : String) (out : Bytes)
  /-- Waiting or copying the output failed with `msg`. -/
  | waitFailed (msg : String) (out : Bytes)
  deriving DecidableEq, Repr

/-- What happens to the process started by one call. -/
structure Run where
  /-- How the process ended. -/
  outcome : ProcOutcome
  /-- Whether `ctx.Err() == context.DeadlineExceeded` holds when `HttpCurl` tests it,
  after `CombinedOutput` has returned. -/
  deadlineExceeded : Bool
  deriving DecidableEq, Repr

/-- The operating system seen from `HttpCurl`: for a program name, an argument
list and a timeout, the run that `exec.CommandContext(...)` produces. -/
abbrev Exec := String → List String → Duration → Run

/-- Observable effects of a call. -/
inductive Event where
  /-- A line written by `fmt.Println`. -/
  | println (line : String)
  /-- A child process started through `exec.CommandContext(ctx, name, args...)`,
  under a context with the given timeout. -/
  | launch (name : String) (args : List String) (timeout : Duration)
  deriving DecidableEq, Repr

/-- The documented contract of `(*exec.Cmd).CombinedOutput` in Go's `os/exec`: the
bytes collected from standard output and standard error, and an error that is `nil`
only when the program ran and exited with status zero. -/
def CombinedOutput : ProcOutcome → Bytes × Option Error
  | .startFailed msg => ([], some (.exec (.start msg)))
  | .exited 0 out => (out, none)
  | .exited (status + 1) out => (out, some (.exec (.exit (status + 1))))
  | .signaled name out => (out, some (.exec (.signal name)))
  | .waitFailed msg out => (out, some (.exec (.wait msg)))

/-- The results `(output, err)` of `HttpCurl`, with the effects of the call. -/
structure Result where
  output : Bytes
  err : Option Error
  events : List Event
  deriving DecidableEq, Repr

/-- The line that `fmt.Println("curlArgs :", curlArgs)` writes. -/
def printedArgs (curlArgs : List String) : String :=
  "curlArgs : [" ++ " ".intercalate curlArgs ++ "]\n"

/-- Go function `HttpCurl`. `printArgs` is the package variable of that name and
`exec` the operating system. -/
def HttpCurl (printArgs : Bool) (exec : Exec) (options : CurlOption)
    (timeout : Duration) : Result :=
  match sanitizeInput options with
  | (_, some err) => { output := [], err := some err, events := [] }
  | (curlArgs, none) =>
    let curlArgs := ["-s"] ++ curlArgs
    let printed := if printArgs then [Event.println (printedArgs curlArgs)] else []
    let run := exec "curl" curlArgs timeout
    let events := printed ++ [Event.launch "curl" curlArgs timeout]
    let (output, err) := CombinedOutput run.outcome
    if run.deadlineExceeded then
      { output := output, err := some Error.timedOut, events := events }
    else
      { output := output, err := err, events := events }

/-! ## `CurlValue.UnmarshalJSON` -/

/-- A JSON value, as the decoder hands it to `UnmarshalJSON` (already syntactically
valid). A number is kept as its literal text. -/
inductive JSON where
  | null
  | bool (b : Bool)
  | number (literal : String)
  | string (s : String)
  | array (elems : List JSON)
  | object (members : List (String × JSON))

/-- The documented behaviour of `json.Unmarshal(data, &single)` for a fresh
`var single string`: a JSON string is stored, JSON `null` "has no effect and no
error" so that `single` keeps its zero value, and every other value is an error. -/
def unmarshalString : JSON → Option String
  | .string s => some s
  | .null => some ""
  | _ => none

/-- The elements of a JSON array decoded into a `[]string`: every element is
decoded as `unmarshalString` does, and an error in any element is an error of the
whole call. -/
def unmarshalElems : List JSON → Option (List String)
  | [] => some []
  | e :: rest =>
    match unmarshalString e, unmarshalElems rest with
    | some s, some ss => some (s :: ss)
    | _, _ => none

/-- The documented behaviour of `json.Unmarshal(data, &multiple)` for a fresh
`var multiple []string`: JSON `null` sets the slice to `nil`, an array is decoded
element by element as `unmarshalString` does and the call reports an error when an
element does, and every other value is an error. -/
def unmarshalStrings : JSON → Option (List String)
  | .null => some []
  | .array elems => unmarshalElems elems
  | _ => none

/-- Go method `(*CurlValue).UnmarshalJSON`: `.ok cv` when it stores `cv` and returns
`nil`, `.error msg` when it returns an error and stores nothing. -/
def UnmarshalJSON (data : JSON) : Except String CurlValue :=
  match unmarshalString data with
  | some single => .ok [single]
  | none =>
    match unmarshalStrings data with
    | some multiple => .ok multiple
    | none => .error "invalid value for CurlValue, must be string or []string"

/-! ## `base64.StdEncoding.EncodeToString` -/

/-- The alphabet of `base64.StdEncoding`. -/
def encodeStd : List Char :=
  "ABCDEFGHIJKLMNOPQRSTUVWXYZabcdefghijklmnopqrstuvwxyz0123456789+/".toList

/-- The character `enc.encode[val >> shift & 0x3F]`. -/
def encodeAt (val shift : Nat) : Char :=
  encodeStd.getD ((val >>> shift) &&& 0x3F) 'A'

/-- The standard padded base64 encoding, three source bytes to four characters, as
`(*Encoding).Encode` computes it. -/
def encodeChars : Bytes → List Char
  | [] => []
  | [a] =>
    let val := a.val <<< 16
    [encodeAt val 18, encodeAt val 12, '=', '=']
  | [a, b] =>
    let val := a.val <<< 16 ||| b.val <<< 8
    [encodeAt val 18, encodeAt val 12, encodeAt val 6, '=']
  | a :: b :: c :: rest =>
    let val := a.val <<< 16 ||| b.val <<< 8 ||| c.val
    [encodeAt val 18, encodeAt val 12, encodeAt val 6, encodeAt val 0] ++ encodeChars rest

/-- Go function `base64.StdEncoding.EncodeToString`. -/
def EncodeToString (src : Bytes) : String :=
  String.mk (encodeChars src)

/-! ## `handleCurl` -/

/-- A Go `string` used as response content: its bytes. -/
abbrev GoString := Bytes

/-- The bytes of a text (UTF-8), which is how Go holds a `string`. -/
def goString (s : String) : GoString :=
  s.toList.flatMap fun c => (String.utf8EncodeChar c).map fun b => b.val

/-- What `handleCurl` reads from the echo context `c`. -/
structure Request where
  /-- The value of `c.Request().Header.Get("Content-Type")`. -/
  contentType : String
  /-- The value of `c.Request().Header.Get("Accept")`. -/
  accept : String
  /-- The function `c.QueryParam`. -/
  queryParam : String → String
  /-- What `c.Bind(&reqData)` leaves in `reqData`, or `none` when it returns an error. -/
  bind : Option CurlOption

/-- What `handleCurl` depends on besides the request. -/
structure Env where
  /-- The package variable `printArgs` of `httpcurl`. -/
  printArgs : Bool
  /-- The function `time.ParseDuration`; `none` when it returns an error. -/
  parseDuration : String → Option Duration
  /-- The operating system. -/
  exec : Exec

/-- The response written by `handleCurl`. -/
inductive Response where
  /-- The call `c.JSON(status, fields)` with a `map[string]string`. -/
  | json (status : Nat) (fields : List (String × GoString))
  /-- The call `c.Blob(status, contentType, body)`. -/
  | blob (status : Nat) (contentType : String) (body : Bytes)
  deriving DecidableEq, Repr

def StatusOK : Nat := 200
def StatusBadRequest : Nat := 400
def StatusInternalServerError : Nat := 500

/-- Go constant `time.Second`, in nanoseconds. -/
def Second : Duration := 1000000000

/-- The HTTP status of a response. -/
def Response.status : Response → Nat
  | .json status _ => status
  | .blob status _ _ => status

/-- Go function `handleCurl`. -/
def handleCurl (env : Env) (c : Request) : Response :=
  if c.contentType ≠ "application/json" then
    .json StatusBadRequest [("error", goString "Content-Type must be application/json")]
  else
    let timeoutStr := c.queryParam "timeout"
    let parsed : Option Duration :=
      if timeoutStr ≠ "" then env.parseDuration timeoutStr else some (10 * Second)
    match parsed with
    | none => .json StatusBadRequest [("error", goString "Error parsing timeout duration")]
    | some timeout =>
      match c.bind with
      | none => .json StatusBadRequest [("error", goString "Invalid JSON input")]
      | some reqData =>
        let r := HttpCurl env.printArgs env.exec reqData timeout
        match r.err with
        | some err =>
          .json StatusInternalServerError
            [ ("error", goString ("Error executing curl command: " ++ err.message)),
              ("details", r.output) ]
        | none =>
          let formattedOutput : GoString :=
            if c.queryParam "base64" = "true" then goString (EncodeToString r.output)
            else r.output
          if c.queryParam "plain" = "true" then
            .blob StatusOK c.accept formattedOutput
          else
            .json StatusOK [("result", formattedOutput)]

/-! ## Scenario inputs and observation helpers -/

/-- The child processes started during a call: program name and argument list. -/
def launches : List Event → List (String × List String)
  | [] => []
  | .println _ :: rest => launches rest
  | .launch name args _ :: rest => (name, args) :: launches rest

/-- The decoded request body `\x7b"-X": "POST", "-d": "hello", "-H": ["A: 1", "B: 2"]\x7d`. -/
def scenarioInput : CurlOption :=
  [("-X", ["POST"]), ("-d", ["hello"]), ("-H", ["A: 1", "B: 2"])]

/-- The three argument blocks of `scenarioInput`, one per key. -/
def scenarioBlocks : List (List String) :=
  [["-X", "POST"], ["-d", "hello"], ["-H", "A: 1", "-H", "B: 2"]]

/-- Whether a value makes a bare flag. -/
def isBare (value : String) : Bool :=
  decide (value = "" ∨ value = "true")

/-- All values of an option map, over all keys. -/
def allValues (input : CurlOption) : List String :=
  (input.map Prod.snd).flatten

/-! ## Lemmas about the sanitizer -/

theorem lookup_all_true (keys : List String) (key : String) :
    (match (keys.map fun k => (k, true)).lookup key with
      | some b => b
      | none => false) = true ↔ key ∈ keys := by
  induction keys with
  | nil => simp
  | cons k rest ih =>
    by_cases hk : key = k
    · subst hk; simp [List.lookup]
    · have hb : (key == k) = false := by simpa using hk
      simp only [List.map_cons, List.lookup, hb, List.mem_cons, hk, false_or]
      exact ih

theorem allowed_iff_mem_allowList (key : String) :
    AllowedCurlOptions key = true ↔ key ∈ allowList :=
  lookup_all_true allowList key

theorem appendValues_eq (key : String) (values args : List String) :
    appendValues key args values = args ++ (values.map (emitValue key)).flatten := by
  induction values generalizing args with
  | nil => simp [appendValues]
  | cons value rest ih =>
    by_cases hv : value = "" ∨ value = "true"
    · simp [appendValues, emitValue, hv, ih]
    · simp [appendValues, emitValue, hv, ih]

theorem sanitizeLoop_allowed (input : CurlOption) (args : List String)
    (h : ∀ e ∈ input, AllowedCurlOptions e.1 = true) :
    sanitizeLoop args input = (args ++ (input.map emitKey).flatten, none) := by
  induction input generalizing args with
  | nil => simp [sanitizeLoop]
  | cons e rest ih =>
    obtain ⟨key, values⟩ := e
    have hk : AllowedCurlOptions key = true := h (key, values) (by simp)
    have hr : ∀ e ∈ rest, AllowedCurlOptions e.1 = true := fun e he => h e (by simp [he])
    simp [sanitizeLoop, hk, ih _ hr, appendValues_eq, emitKey]

theorem sanitizeLoop_rejected (input : CurlOption) (args : List String)
    (h : ∃ e ∈ input, AllowedCurlOptions e.1 = false) :
    ∃ key, key ∈ input.map Prod.fst ∧ AllowedCurlOptions key = false ∧
      sanitizeLoop args input = ([], some (Error.unauthorized key)) := by
  induction input generalizing args with
  | nil => simp at h
  | cons e rest ih =>
    obtain ⟨key, values⟩ := e
    by_cases hk : AllowedCurlOptions key = true
    · have hr : ∃ e ∈ rest, AllowedCurlOptions e.1 = false := by
        obtain ⟨e, he, hf⟩ := h
        rcases List.mem_cons.mp he with rfl | he
        · simp [hk] at hf
        · exact ⟨e, he, hf⟩
      obtain ⟨k, hmem, hnot, heq⟩ := ih (appendValues key args values) hr
      exact ⟨k, by simp at hmem ⊢; exact Or.inr hmem, hnot, by simp [sanitizeLoop, hk, heq]⟩
    · have hk' : AllowedCurlOptions key = false := by simpa using hk
      exact ⟨key, by simp, hk', by simp [sanitizeLoop, hk']⟩

theorem sanitizeInput_ok_iff (input : CurlOption) :
    (sanitizeInput input).2 = none ↔ ∀ e ∈ input, AllowedCurlOptions e.1 = true := by
  constructor
  · intro h
    by_contra hne
    have hex : ∃ e ∈ input, AllowedCurlOptions e.1 = false := by
      simpa using hne
    obtain ⟨k, _, _, heq⟩ := sanitizeLoop_rejected input [] hex
    simp [sanitizeInput, heq] at h
  · intro h
    simp [sanitizeInput, sanitizeLoop_allowed input [] h]

theorem sanitizeInput_allowed (input : CurlOption) (h : ∀ e ∈ input, e.1 ∈ allowList) :
    sanitizeInput input = ((input.map emitKey).flatten, none) := by
  have h' : ∀ e ∈ input, AllowedCurlOptions e.1 = true :=
    fun e he => (allowed_iff_mem_allowList e.1).mpr (h e he)
  simp [sanitizeInput, sanitizeLoop_allowed input [] h']

theorem sanitizeInput_rejected (input : CurlOption) (h : ∃ e ∈ input, e.1 ∉ allowList) :
    ∃ key, key ∈ input.map Prod.fst ∧ key ∉ allowList ∧
      sanitizeInput input = ([], some (Error.unauthorized key)) := by
  have h' : ∃ e ∈ input, AllowedCurlOptions e.1 = false := by
    obtain ⟨e, he, hn⟩ := h
    refine ⟨e, he, ?_⟩
    have := (allowed_iff_mem_allowList e.1).not.mpr hn
    simpa using this
  obtain ⟨key, hmem, hnot, heq⟩ := sanitizeLoop_rejected input [] h'
  refine ⟨key, hmem, ?_, heq⟩
  intro hin
  have := (allowed_iff_mem_allowList key).mpr hin
  simp [hnot] at this

theorem emitKey_length (key : String) (values : List String) :
    (emitKey (key, values)).length =
      (values.filter isBare).length + 2 * (values.filter fun v => !isBare v).length := by
  induction values with
  | nil => simp [emitKey]
  | cons v rest ih =>
    simp only [emitKey, List.map_cons, List.flatten_cons, List.length_append] at ih ⊢
    by_cases hv : v = "" ∨ v = "true"
    · have hb : isBare v = true := by simp [isBare, hv]
      simp only [emitValue, hv, if_true, List.filter_cons, hb, List.length_cons,
        List.length_nil, Bool.not_true, Bool.false_eq_true, if_false]
      omega
    · have hb : isBare v = false := by simp [isBare, hv]
      simp only [emitValue, hv, if_false, List.filter_cons, hb, List.length_cons,
        List.length_nil, Bool.not_false, if_true, Bool.false_eq_true]
      omega

theorem emitted_length (input : CurlOption) :
    ((input.map emitKey).flatten).length =
      ((allValues input).filter isBare).length +
        2 * ((allValues input).filter fun v => !isBare v).length := by
  induction input with
  | nil => simp [allValues]
  | cons e rest ih =>
    obtain ⟨key, values⟩ := e
    have hk := emitKey_length key values
    simp only [allValues, List.map_cons, List.flatten_cons, List.length_append,
      List.filter_append] at ih ⊢
    omega

/-! ## Lemmas about `HttpCurl` -/

theorem HttpCurl_accepted (printArgs : Bool) (exec : Exec) (options : CurlOption)
    (timeout : Duration) (args : List String) (h : sanitizeInput options = (args, none)) :
    HttpCurl printArgs exec options timeout =
      { output := (CombinedOutput (exec "curl" ("-s" :: args) timeout).outcome).1
        err :=
          if (exec "curl" ("-s" :: args) timeout).deadlineExceeded then some Error.timedOut
          else (CombinedOutput (exec "curl" ("-s" :: args) timeout).outcome).2
        events :=
          (if printArgs then [Event.println (printedArgs ("-s" :: args))] else []) ++
            [Event.launch "curl" ("-s" :: args) timeout] } := by
  unfold HttpCurl
  rw [h]
  simp only [List.singleton_append]
  cases hd : (exec "curl" ("-s" :: args) timeout).deadlineExceeded <;> simp [hd]

theorem HttpCurl_rejected (printArgs : Bool) (exec : Exec) (options : CurlOption)
    (timeout : Duration) (args : List String) (err : Error)
    (h : sanitizeInput options = (args, some err)) :
    HttpCurl printArgs exec options timeout =
      { output := [], err := some err, events := [] } := by
  unfold HttpCurl
  rw [h]

theorem sanitizeInput_eta (options : CurlOption) (h : (sanitizeInput options).2 = none) :
    sanitizeInput options = ((sanitizeInput options).1, none) := by
  rw [← h]

theorem launches_accepted (printArgs : Bool) (args : List String) (timeout : Duration) :
    launches ((if printArgs then [Event.println (printedArgs ("-s" :: args))] else []) ++
      [Event.launch "curl" ("-s" :: args) timeout]) = [("curl", "-s" :: args)] := by
  cases printArgs <;> simp [launches]

theorem CombinedOutput_ne_timedOut (outcome : ProcOutcome) :
    (CombinedOutput outcome).2 ≠ some Error.timedOut := by
  cases outcome with
  | startFailed msg => simp [CombinedOutput]
  | exited status out => cases status <;> simp [CombinedOutput]
  | signaled name out => simp [CombinedOutput]
  | waitFailed msg out => simp [CombinedOutput]

/-! ## The sanitizer -/

/-- C1: for an option map `input` visited in any order `order` of its entries,
`sanitizeInput` returns a `nil` error exactly when every key of the map is one of the
eight allow-listed strings, and when it returns an error the argument list it
returns is `nil`. -/
theorem sanitizeInput_succeeds_iff_allowed (input order : CurlOption)
    (h : order.Perm input) :
    ((sanitizeInput order).2 = none ↔
      ∀ e ∈ input,
        e.1 ∈ ["-k", "-x", "-X", "-d", "--data", "--location", "-H", "--tls-max"]) ∧
    ((sanitizeInput order).2 ≠ none → (sanitizeInput order).1 = []) := by
  constructor
  · rw [sanitizeInput_ok_iff]
    constructor
    · intro ha e he
      exact (allowed_iff_mem_allowList e.1).mp (ha e (h.mem_iff.mpr he))
    · intro ha e he
      exact (allowed_iff_mem_allowList e.1).mpr (ha e (h.mem_iff.mp he))
  · intro hne
    have hex : ∃ e ∈ order, e.1 ∉ allowList := by
      by_contra hall
      apply hne
      rw [sanitizeInput_ok_iff]
      intro e he
      by_contra hna
      exact hall ⟨e, he, fun hin => hna ((allowed_iff_mem_allowList e.1).mpr hin)⟩
    obtain ⟨key, _, _, heq⟩ := sanitizeInput_rejected order hex
    simp [heq]

theorem sanitizeInput_succeeds_iff_allowed_witness :
    (((sanitizeInput [("-F", ["evil"]), ("-k", ["true"])]).2 = none ↔
      ∀ e ∈ [("-k", ["true"]), ("-F", ["evil"])],
        e.1 ∈ ["-k", "-x", "-X", "-d", "--data", "--location", "-H", "--tls-max"]) ∧
    ((sanitizeInput [("-F", ["evil"]), ("-k", ["true"])]).2 ≠ none →
      (sanitizeInput [("-F", ["evil"]), ("-k", ["true"])]).1 = [])) :=
  sanitizeInput_succeeds_iff_allowed [("-k", ["true"]), ("-F", ["evil"])]
    [("-F", ["evil"]), ("-k", ["true"])] (List.Perm.swap _ _ _)

/-- C2: for an option map whose keys are all allow-listed, visited in the order
`input`, `sanitizeInput` returns a `nil` error and exactly the concatenation, key by
key in that order, of the concatenation over the key's values in their order of
`[k]` for a value `""` or `"true"` and `[k, v]` for any other value `v`. -/
theorem sanitizeInput_eq_concat (input : CurlOption)
    (h : ∀ e ∈ input, e.1 ∈ allowList) :
    sanitizeInput input =
      ((input.map fun e =>
          (e.2.map fun v => if v = "" ∨ v = "true" then [e.1] else [e.1, v]).flatten).flatten,
        none) := by
  rw [sanitizeInput_allowed input h]
  rfl

theorem sanitizeInput_eq_concat_witness :
    (∀ e ∈ [("-H", ["A: 1", "true", "", "-F"]), ("-k", []), ("-X", ["POST"])],
        e.1 ∈ allowList) ∧
    sanitizeInput [("-H", ["A: 1", "true", "", "-F"]), ("-k", []), ("-X", ["POST"])] =
      (["-H", "A: 1", "-H", "-H", "-H", "-F", "-X", "POST"], none) :=
  ⟨by decide,
    sanitizeInput_eq_concat [("-H", ["A: 1", "true", "", "-F"]), ("-k", []), ("-X", ["POST"])]
      (by decide)⟩

/-- C10: for an option map whose keys are all allow-listed, visited in the order
`input`, an entry with an empty value sequence contributes nothing (the result is
the one obtained without that entry, the other entries keeping their order), the
length of the result is the number of values that are `""` or `"true"` plus twice
the number of the other values, and the map with the single entry `"-k": []` gives
the empty argument list. -/
theorem sanitizeInput_empty_values_dropped (input : CurlOption)
    (h : ∀ e ∈ input, e.1 ∈ allowList) :
    (∀ (before after : CurlOption) (k : String), input = before ++ (k, []) :: after →
      sanitizeInput (before ++ after) = sanitizeInput input) ∧
    (sanitizeInput input).1.length =
      ((allValues input).filter isBare).length +
        2 * ((allValues input).filter fun v => !isBare v).length ∧
    sanitizeInput [("-k", [])] = ([], none) := by
  refine ⟨?_, ?_, by decide⟩
  · intro before after k hin
    subst hin
    have h2 : ∀ e ∈ before ++ after, e.1 ∈ allowList := by
      intro e he
      apply h e
      rcases List.mem_append.mp he with hb | ha
      · exact List.mem_append.mpr (Or.inl hb)
      · exact List.mem_append.mpr (Or.inr (List.mem_cons_of_mem _ ha))
    rw [sanitizeInput_allowed _ h, sanitizeInput_allowed _ h2]
    simp [emitKey]
  · rw [sanitizeInput_allowed _ h]
    exact emitted_length input

theorem sanitizeInput_empty_values_dropped_witness :
    (∀ e ∈ [("-X", ["POST"]), ("-k", []), ("-H", ["true", "A: 1"])], e.1 ∈ allowList) ∧
    sanitizeInput ([("-X", ["POST"])] ++ [("-H", ["true", "A: 1"])]) =
      sanitizeInput [("-X", ["POST"]), ("-k", []), ("-H", ["true", "A: 1"])] ∧
    (sanitizeInput [("-X", ["POST"]), ("-k", []), ("-H", ["true", "A: 1"])]).1.length =
      1 + 2 * 2 :=
  ⟨by decide,
    (sanitizeInput_empty_values_dropped
      [("-X", ["POST"]), ("-k", []), ("-H", ["true", "A: 1"])] (by decide)).1
      [("-X", ["POST"])] [("-H", ["true", "A: 1"])] "-k" rfl,
    (sanitizeInput_empty_values_dropped
      [("-X", ["POST"]), ("-k", []), ("-H", ["true", "A: 1"])] (by decide)).2.1⟩

/-! ## The executor -/

/-- C3: for an option map accepted by `sanitizeInput` and any timeout, `HttpCurl`
starts exactly one child process, the program `"curl"`, with the argument list
`"-s"` followed by the result of `sanitizeInput`; and for the scenario map visited
in any order, that list is `"-s"` followed by the three blocks `[-X, POST]`,
`[-d, hello]` and `[-H, "A: 1", -H, "B: 2"]` in some order. -/
theorem HttpCurl_launches_curl_once (printArgs : Bool) (exec : Exec)
    (timeout : Duration) (options order : CurlOption)
    (h : (sanitizeInput options).2 = none) (ho : order.Perm scenarioInput) :
    launches (HttpCurl printArgs exec options timeout).events =
      [("curl", "-s" :: (sanitizeInput options).1)] ∧
    ∃ blocks : List (List String), blocks.Perm scenarioBlocks ∧
      launches (HttpCurl printArgs exec order timeout).events =
        [("curl", "-s" :: blocks.flatten)] := by
  constructor
  · rw [HttpCurl_accepted printArgs exec options timeout _ (sanitizeInput_eta options h)]
    exact launches_accepted printArgs _ timeout
  · have hall : ∀ e ∈ order, e.1 ∈ allowList := by
      intro e he
      have hs : ∀ e ∈ scenarioInput, e.1 ∈ allowList := by decide
      exact hs e (ho.mem_iff.mp he)
    refine ⟨order.map emitKey, ?_, ?_⟩
    · have hb : scenarioInput.map emitKey = scenarioBlocks := by decide
      rw [← hb]
      exact ho.map emitKey
    · rw [HttpCurl_accepted printArgs exec order timeout _ (sanitizeInput_allowed order hall)]
      exact launches_accepted printArgs _ timeout

theorem HttpCurl_launches_curl_once_witness :
    launches (HttpCurl true (fun _ _ _ => { outcome := .exited 0 [], deadlineExceeded := false })
        [("-k", ["true"])] (10 * Second)).events =
      [("curl", "-s" :: (sanitizeInput [("-k", ["true"])]).1)] ∧
    ∃ blocks : List (List String), blocks.Perm scenarioBlocks ∧
      launches (HttpCurl true
          (fun _ _ _ => { outcome := .exited 0 [], deadlineExceeded := false })
          [("-d", ["hello"]), ("-X", ["POST"]), ("-H", ["A: 1", "B: 2"])]
          (10 * Second)).events =
        [("curl", "-s" :: blocks.flatten)] :=
  HttpCurl_launches_curl_once true
    (fun _ _ _ => { outcome := .exited 0 [], deadlineExceeded := false }) (10 * Second)
    [("-k", ["true"])] [("-d", ["hello"]), ("-X", ["POST"]), ("-H", ["A: 1", "B: 2"])]
    (by decide) (List.Perm.swap _ _ _)

/-- C4: for an option map with at least one key outside the allow-list and any
timeout, `HttpCurl` starts no child process (it has no effect at all) and returns
empty output with an error whose text is `"unauthorized curl option: "` followed by
a key of the map that is outside the allow-list; for the map with the single entry
`"-F": "evil"` the key named is `-F`. -/
theorem HttpCurl_rejects_without_launch (printArgs : Bool) (exec : Exec)
    (options : CurlOption) (timeout : Duration)
    (h : ∃ e ∈ options, e.1 ∉ allowList) :
    (HttpCurl printArgs exec options timeout).events = [] ∧
    (HttpCurl printArgs exec options timeout).output = [] ∧
    (∃ key err, key ∈ options.map Prod.fst ∧ key ∉ allowList ∧
      (HttpCurl printArgs exec options timeout).err = some err ∧
      err.message = "unauthorized curl option: " ++ key) ∧
    ∃ err, (HttpCurl printArgs exec [("-F", ["evil"])] timeout).err = some err ∧
      err.message = "unauthorized curl option: -F" := by
  obtain ⟨key, hmem, hnot, heq⟩ := sanitizeInput_rejected options h
  rw [HttpCurl_rejected printArgs exec options timeout _ _ heq]
  refine ⟨rfl, rfl, ⟨key, Error.unauthorized key, hmem, hnot, rfl, rfl⟩, ?_⟩
  have hF : sanitizeInput [("-F", ["evil"])] = ([], some (Error.unauthorized "-F")) := by
    decide
  rw [HttpCurl_rejected printArgs exec _ timeout _ _ hF]
  exact ⟨Error.unauthorized "-F", rfl, by decide⟩

theorem HttpCurl_rejects_without_launch_witness :
    (HttpCurl true (fun _ _ _ => { outcome := .exited 0 [], deadlineExceeded := false })
      [("-k", ["true"]), ("--output", ["/etc/passwd"])] (10 * Second)).events = [] :=
  (HttpCurl_rejects_without_launch true
    (fun _ _ _ => { outcome := .exited 0 [], deadlineExceeded := false })
    [("-k", ["true"]), ("--output", ["/etc/passwd"])] (10 * Second)
    ⟨("--output", ["/etc/passwd"]), by decide, by decide⟩).1

/-- C5, as stated, fails: for the accepted map `"-k": "true"` and a run in which the
child process exits with status 1 before the deadline, `HttpCurl` returns the
process output together with a non-`nil` error, the exit error of `CombinedOutput`. -/
theorem HttpCurl_nonzero_exit_returns_error :
    (sanitizeInput [("-k", ["true"])]).2 = none ∧
    (HttpCurl false
      (fun _ _ _ => { outcome := .exited 1 [104, 105], deadlineExceeded := false })
      [("-k", ["true"])] (10 * Second)).output = [104, 105] ∧
    (HttpCurl false
      (fun _ _ _ => { outcome := .exited 1 [104, 105], deadlineExceeded := false })
      [("-k", ["true"])] (10 * Second)).err = some (Error.exec (ExecError.exit 1)) ∧
    (HttpCurl false
      (fun _ _ _ => { outcome := .exited 1 [104, 105], deadlineExceeded := false })
      [("-k", ["true"])] (10 * Second)).err ≠ none := by
  decide

/-- C5, amended: for an accepted option map and a run in which the child process
starts and exits with status `status` before the deadline, `HttpCurl` returns the
process's combined output; the error is `nil` exactly when `status` is zero, and for
a non-zero status it is the exit error handed back by `CombinedOutput`. -/
theorem HttpCurl_exit_before_deadline (printArgs : Bool) (exec : Exec)
    (options : CurlOption) (timeout : Duration) (status : Nat) (out : Bytes)
    (h : (sanitizeInput options).2 = none)
    (hrun : exec "curl" ("-s" :: (sanitizeInput options).1) timeout =
      { outcome := .exited status out, deadlineExceeded := false }) :
    (HttpCurl printArgs exec options timeout).output = out ∧
    ((HttpCurl printArgs exec options timeout).err = none ↔ status = 0) ∧
    (status ≠ 0 →
      (HttpCurl printArgs exec options timeout).err =
        some (Error.exec (ExecError.exit status))) := by
  rw [HttpCurl_accepted printArgs exec options timeout _ (sanitizeInput_eta options h), hrun]
  cases status with
  | zero => simp [CombinedOutput]
  | succ n => simp [CombinedOutput]

theorem HttpCurl_exit_before_deadline_witness :
    (HttpCurl true
      (fun _ _ _ => { outcome := .exited 22 [52, 48, 52], deadlineExceeded := false })
      [("-X", ["POST"])] (10 * Second)).output = [52, 48, 52] ∧
    ((HttpCurl true
      (fun _ _ _ => { outcome := .exited 22 [52, 48, 52], deadlineExceeded := false })
      [("-X", ["POST"])] (10 * Second)).err = none ↔ 22 = 0) ∧
    (22 ≠ 0 →
      (HttpCurl true
        (fun _ _ _ => { outcome := .exited 22 [52, 48, 52], deadlineExceeded := false })
        [("-X", ["POST"])] (10 * Second)).err = some (Error.exec (ExecError.exit 22))) :=
  HttpCurl_exit_before_deadline true
    (fun _ _ _ => { outcome := .exited 22 [52, 48, 52], deadlineExceeded := false })
    [("-X", ["POST"])] (10 * Second) 22 [52, 48, 52] (by decide) rfl

/-- C6: for an accepted option map, when the deadline has expired at the time
`HttpCurl` tests the context after collecting the output, it returns the error
`"request timed out"` (never `nil`), whatever the process reported, together with
the bytes that were collected; when the deadline has not expired, the error it
returns is never that timeout error. -/
theorem HttpCurl_timeout_classification (printArgs : Bool) (exec : Exec)
    (options : CurlOption) (timeout : Duration)
    (h : (sanitizeInput options).2 = none) :
    ((exec "curl" ("-s" :: (sanitizeInput options).1) timeout).deadlineExceeded = true →
      (HttpCurl printArgs exec options timeout).err = some Error.timedOut ∧
      Error.timedOut.message = "request timed out" ∧
      (HttpCurl printArgs exec options timeout).err ≠ none ∧
      (HttpCurl printArgs exec options timeout).output =
        (CombinedOutput
          (exec "curl" ("-s" :: (sanitizeInput options).1) timeout).outcome).1) ∧
    ((exec "curl" ("-s" :: (sanitizeInput options).1) timeout).deadlineExceeded = false →
      (HttpCurl printArgs exec options timeout).err ≠ some Error.timedOut) := by
  rw [HttpCurl_accepted printArgs exec options timeout _ (sanitizeInput_eta options h)]
  constructor
  · intro hd
    simp [hd, Error.message]
  · intro hd
    simp only [hd, Bool.false_eq_true, if_false]
    exact CombinedOutput_ne_timedOut _

theorem HttpCurl_timeout_classification_witness :
    (HttpCurl false
      (fun _ _ _ => { outcome := .exited 0 [111, 107], deadlineExceeded := true })
      [("-k", ["true"])] 1000000).err = some Error.timedOut ∧
    (HttpCurl false
      (fun _ _ _ => { outcome := .exited 0 [111, 107], deadlineExceeded := true })
      [("-k", ["true"])] 1000000).output = [111, 107] :=
  ⟨((HttpCurl_timeout_classification false
      (fun _ _ _ => { outcome := .exited 0 [111, 107], deadlineExceeded := true })
      [("-k", ["true"])] 1000000 (by decide)).1 rfl).1,
    ((HttpCurl_timeout_classification false
      (fun _ _ _ => { outcome := .exited 0 [111, 107], deadlineExceeded := true })
      [("-k", ["true"])] 1000000 (by decide)).1 rfl).2.2.2⟩

/-! ## The handler -/

theorem handleCurl_calls_core (env : Env) (c : Request) (reqData : CurlOption)
    (timeout : Duration)
    (hct : c.contentType = "application/json")
    (ht : (c.queryParam "timeout" = "" ∧ timeout = 10 * Second) ∨
      (c.queryParam "timeout" ≠ "" ∧
        env.parseDuration (c.queryParam "timeout") = some timeout))
    (hb : c.bind = some reqData) :
    handleCurl env c =
      match (HttpCurl env.printArgs env.exec reqData timeout).err with
      | some err =>
        .json 500
          [ ("error", goString ("Error executing curl command: " ++ err.message)),
            ("details", (HttpCurl env.printArgs env.exec reqData timeout).output) ]
      | none =>
        if c.queryParam "plain" = "true" then
          .blob 200 c.accept
            (if c.queryParam "base64" = "true" then
              goString (EncodeToString (HttpCurl env.printArgs env.exec reqData timeout).output)
            else (HttpCurl env.printArgs env.exec reqData timeout).output)
        else
          .json 200
            [("result",
              if c.queryParam "base64" = "true" then
                goString
                  (EncodeToString (HttpCurl env.printArgs env.exec reqData timeout).output)
              else (HttpCurl env.printArgs env.exec reqData timeout).output)] := by
  unfold handleCurl
  rcases ht with ⟨h0, hd⟩ | ⟨h1, hp⟩
  · subst hd
    simp only [hct, h0, hb, ne_eq, not_true_eq_false, if_false]
    rfl
  · simp only [hct, h1, hp, hb, ne_eq, not_true_eq_false, not_false_eq_true, if_false,
      if_true]
    rfl

/-- C7, as stated, fails: a `/curl` request with content type `application/json`, no
timeout parameter and the body `"-F": "evil"` is answered with status 500, not 400. -/
theorem handleCurl_rejected_option_status_500 :
    (handleCurl
      { printArgs := true, parseDuration := fun _ => none,
        exec := fun _ _ _ => { outcome := .exited 0 [], deadlineExceeded := false } }
      { contentType := "application/json", accept := "", queryParam := fun _ => "",
        bind := some [("-F", ["evil"])] }).status = 500 ∧
    (handleCurl
      { printArgs := true, parseDuration := fun _ => none,
        exec := fun _ _ _ => { outcome := .exited 0 [], deadlineExceeded := false } }
      { contentType := "application/json", accept := "", queryParam := fun _ => "",
        bind := some [("-F", ["evil"])] }).status ≠ 400 := by
  decide

/-- C7, amended: for a `/curl` request with content type `application/json`, a valid
or absent timeout, and a body that decodes to an option map with a key outside the
allow-list, `handleCurl` responds with status 500 and a JSON object whose `error`
is `"Error executing curl command: unauthorized curl option: "` followed by a key
of the map that is outside the allow-list, and whose `details` is empty. -/
theorem handleCurl_rejected_option (env : Env) (c : Request) (reqData : CurlOption)
    (timeout : Duration)
    (hct : c.contentType = "application/json")
    (ht : (c.queryParam "timeout" = "" ∧ timeout = 10 * Second) ∨
      (c.queryParam "timeout" ≠ "" ∧
        env.parseDuration (c.queryParam "timeout") = some timeout))
    (hb : c.bind = some reqData)
    (hk : ∃ e ∈ reqData, e.1 ∉ allowList) :
    ∃ key, key ∈ reqData.map Prod.fst ∧ key ∉ allowList ∧
      handleCurl env c =
        .json 500
          [ ("error",
              goString ("Error executing curl command: unauthorized curl option: " ++ key)),
            ("details", []) ] := by
  obtain ⟨key, hmem, hnot, heq⟩ := sanitizeInput_rejected reqData hk
  refine ⟨key, hmem, hnot, ?_⟩
  rw [handleCurl_calls_core env c reqData timeout hct ht hb,
    HttpCurl_rejected env.printArgs env.exec reqData timeout _ _ heq]
  have hs : "Error executing curl command: " ++ ("unauthorized curl option: " ++ key) =
      "Error executing curl command: unauthorized curl option: " ++ key := by
    rw [← String.append_assoc]
    rfl
  simp only [Error.message, hs]

theorem handleCurl_rejected_option_witness :
    ∃ key, key ∈ [("-F", ["evil"])].map Prod.fst ∧ key ∉ allowList ∧
      handleCurl
        { printArgs := true, parseDuration := fun _ => some 1000000,
          exec := fun _ _ _ => { outcome := .exited 0 [], deadlineExceeded := false } }
        { contentType := "application/json", accept := "",
          queryParam := fun k => if k = "timeout" then "1ms" else "",
          bind := some [("-F", ["evil"])] } =
        .json 500
          [ ("error",
              goString ("Error executing curl command: unauthorized curl option: " ++ key)),
            ("details", []) ] :=
  handleCurl_rejected_option
    { printArgs := true, parseDuration := fun _ => some 1000000,
      exec := fun _ _ _ => { outcome := .exited 0 [], deadlineExceeded := false } }
    { contentType := "application/json", accept := "",
      queryParam := fun k => if k = "timeout" then "1ms" else "",
      bind := some [("-F", ["evil"])] }
    [("-F", ["evil"])] 1000000 rfl (Or.inr ⟨by decide, rfl⟩) rfl
    ⟨("-F", ["evil"]), by decide, by decide⟩

/-- C8: the code departs from the claim and from its own comment on the plain
branch (`return the output as is`). For a request with `plain=true` and
`base64=true` whose core call succeeds with the two bytes of `hi`, `handleCurl`
responds with status 200 and the content type of the `Accept` header, but the body
is the base64 text `aGk=` and not those two bytes. -/
theorem handleCurl_plain_base64_body :
    (HttpCurl true
      (fun _ _ _ => { outcome := .exited 0 [104, 105], deadlineExceeded := false })
      [("-k", ["true"])] (10 * Second)).err = none ∧
    (HttpCurl true
      (fun _ _ _ => { outcome := .exited 0 [104, 105], deadlineExceeded := false })
      [("-k", ["true"])] (10 * Second)).output = [104, 105] ∧
    handleCurl
      { printArgs := true, parseDuration := fun _ => none,
        exec := fun _ _ _ => { outcome := .exited 0 [104, 105], deadlineExceeded := false } }
      { contentType := "application/json", accept := "text/plain",
        queryParam := fun k => if k = "plain" ∨ k = "base64" then "true" else "",
        bind := some [("-k", ["true"])] } =
      .blob 200 "text/plain" [97, 71, 107, 61] ∧
    handleCurl
      { printArgs := true, parseDuration := fun _ => none,
        exec := fun _ _ _ => { outcome := .exited 0 [104, 105], deadlineExceeded := false } }
      { contentType := "application/json", accept := "text/plain",
        queryParam := fun k => if k = "plain" ∨ k = "base64" then "true" else "",
        bind := some [("-k", ["true"])] } ≠
      .blob 200 "text/plain" [104, 105] := by
  decide

/-- Where the plain branch does return the output as is: when the `base64`
parameter is not `"true"`, a request with `plain=true` whose core call succeeds with
output bytes `b` is answered with status 200, the content type of the `Accept`
header and the body `b`. -/
theorem handleCurl_plain_raw (env : Env) (c : Request) (reqData : CurlOption)
    (timeout : Duration) (b : Bytes)
    (hct : c.contentType = "application/json")
    (ht : (c.queryParam "timeout" = "" ∧ timeout = 10 * Second) ∨
      (c.queryParam "timeout" ≠ "" ∧
        env.parseDuration (c.queryParam "timeout") = some timeout))
    (hb : c.bind = some reqData)
    (herr : (HttpCurl env.printArgs env.exec reqData timeout).err = none)
    (hout : (HttpCurl env.printArgs env.exec reqData timeout).output = b)
    (hplain : c.queryParam "plain" = "true")
    (h64 : c.queryParam "base64" ≠ "true") :
    handleCurl env c = .blob 200 c.accept b := by
  rw [handleCurl_calls_core env c reqData timeout hct ht hb, herr, hout]
  simp [hplain, h64]

/-! ## Decoding of values -/

theorem unmarshalElems_strings (ss : List String) :
    unmarshalElems (ss.map JSON.string) = some ss := by
  induction ss with
  | nil => rfl
  | cons s rest ih => simp [unmarshalElems, unmarshalString, ih]

theorem unmarshalElems_lenient (elems : List JSON)
    (h : ∀ e ∈ elems, e = JSON.null ∨ ∃ s, e = JSON.string s) :
    unmarshalElems elems =
      some (elems.map fun e => match e with
        | .string s => s
        | _ => "") := by
  induction elems with
  | nil => rfl
  | cons e rest ih =>
    have hr := ih fun x hx => h x (List.mem_cons_of_mem _ hx)
    rcases h e (List.mem_cons_self _ _) with rfl | ⟨s, rfl⟩
    · simp [unmarshalElems, unmarshalString, hr]
    · simp [unmarshalElems, unmarshalString, hr]

theorem unmarshalElems_strict (elems : List JSON)
    (h : ∃ e ∈ elems, e ≠ JSON.null ∧ ∀ s, e ≠ JSON.string s) :
    unmarshalElems elems = none := by
  induction elems with
  | nil => simp at h
  | cons e rest ih =>
    obtain ⟨x, hx, hnull, hstr⟩ := h
    rcases List.mem_cons.mp hx with rfl | hx
    · cases x with
      | null => exact absurd rfl hnull
      | string s => exact absurd rfl (hstr s)
      | bool b => simp [unmarshalElems, unmarshalString]
      | number n => simp [unmarshalElems, unmarshalString]
      | array a => simp [unmarshalElems, unmarshalString]
      | object o => simp [unmarshalElems, unmarshalString]
    · have hr := ih ⟨x, hx, hnull, hstr⟩
      simp only [unmarshalElems, hr]
      cases unmarshalString e <;> rfl

/-- C9, as stated, fails: JSON `null` is not rejected but decoded to the one-element
sequence holding the empty string, and an array with a `null` element is accepted
too, the `null` giving the empty string. -/
theorem UnmarshalJSON_accepts_null :
    UnmarshalJSON JSON.null = .ok [""] ∧
    UnmarshalJSON (JSON.array [JSON.string "a", JSON.null]) = .ok ["a", ""] := by
  constructor <;> rfl

/-- C9, amended: a JSON string `s` is decoded to `[s]`; an array whose elements are
all strings is decoded to those strings in the same order; JSON `null` is decoded to
`[""]`; an array whose elements are strings or `null` is decoded to its strings in
order with `""` for each `null`; and every other value (a number, a boolean, an
object, an array with an element that is neither a string nor `null`) is rejected
with the error `"invalid value for CurlValue, must be string or []string"`. -/
theorem UnmarshalJSON_cases :
    (∀ s : String, UnmarshalJSON (JSON.string s) = .ok [s]) ∧
    (∀ ss : List String, UnmarshalJSON (JSON.array (ss.map JSON.string)) = .ok ss) ∧
    UnmarshalJSON JSON.null = .ok [""] ∧
    (∀ elems : List JSON, (∀ e ∈ elems, e = JSON.null ∨ ∃ s, e = JSON.string s) →
      UnmarshalJSON (JSON.array elems) =
        .ok (elems.map fun e => match e with
          | .string s => s
          | _ => "")) ∧
    (∀ literal : String, UnmarshalJSON (JSON.number literal) =
      .error "invalid value for CurlValue, must be string or []string") ∧
    (∀ b : Bool, UnmarshalJSON (JSON.bool b) =
      .error "invalid value for CurlValue, must be string or []string") ∧
    (∀ members : List (String × JSON), UnmarshalJSON (JSON.object members) =
      .error "invalid value for CurlValue, must be string or []string") ∧
    (∀ elems : List JSON, (∃ e ∈ elems, e ≠ JSON.null ∧ ∀ s, e ≠ JSON.string s) →
      UnmarshalJSON (JSON.array elems) =
        .error "invalid value for CurlValue, must be string or []string") := by
  refine ⟨fun s => rfl, ?_, rfl, ?_, fun _ => rfl, fun _ => rfl, fun _ => rfl, ?_⟩
  · intro ss
    simp [UnmarshalJSON, unmarshalString, unmarshalStrings, unmarshalElems_strings]
  · intro elems h
    simp [UnmarshalJSON, unmarshalString, unmarshalStrings, unmarshalElems_lenient elems h]
  · intro elems h
    simp [UnmarshalJSON, unmarshalString, unmarshalStrings, unmarshalElems_strict elems h]

theorem UnmarshalJSON_cases_witness :
    UnmarshalJSON (JSON.array [JSON.string "A: 1", JSON.number "7"]) =
      .error "invalid value for CurlValue, must be string or []string" :=
  UnmarshalJSON_cases.2.2.2.2.2.2.2 [JSON.string "A: 1", JSON.number "7"]
    ⟨JSON.number "7", by simp, by simp, by simp⟩

end httpcurl
